import Mathlib

/-!
A verification development for the voxeling repository.

Shallow embedding of:
- the greedy mesher of src/src/lib/meshers/horizontal-merge.js
  (face occlusion, run merging, per-texture output buffers), and
- the chunk lifecycle and visibility tracking of src/src/client-worker.js
  (regionChange diffing, fetch-result handling, the per-tick mesh delivery loop).

Numbers: voxel material ids are Nat (unsigned bytes); world coordinates are Int;
vertex/texcoord/normal components are Rat (exact model of the float values the
code writes, which are sums of integers and texture-atlas offsets).
Output buffers are modelled as an offset plus a total function Nat -> Rat whose
initial contents are arbitrary recycled pool garbage, exactly like pool.malloc.
-/

namespace Voxeling

namespace HorizontalMerge

/-- The six face directions (the JS string constants of horizontal-merge.js). -/
inductive Face where
  | top
  | front
  | left
  | back
  | right
  | bottom
deriving DecidableEq, Repr

/-- faceIndex (horizontal-merge.js lines 487-497): face -> slot in a material's
per-face textures array. -/
def faceIndex : Face → Nat
  | .top => 0
  | .front => 1
  | .left => 2
  | .back => 3
  | .right => 4
  | .bottom => 5

/-- A chunk as the mesher's chunkCache holds it: lower-corner world position and
the flat voxel array. -/
structure MChunk where
  position : Int × Int × Int
  voxels : List Nat

/-- One entry of the voxelsToTextures table (config): the six per-face texture
ids of a material. -/
structure VoxelTextures where
  textures : List Nat

/-- The module-level configuration of horizontal-merge.js, set by config():
chunkSize, the two texture tables, the Coordinator handle (its two functions)
and the chunk cache. A chunk id is kept as the chunk-grid coordinate triple,
an injective stand-in for the string key the Coordinator encodes. -/
structure Ctx where
  chunkSize : Nat
  voxelsToTextures : Nat → Option VoxelTextures
  textureOffsets : Nat → Rat × Rat × Rat
  coordinatesToChunkID : Int → Int → Int → Int × Int × Int
  coordinatesToVoxelIndex : Int → Int → Int → Nat
  chunkCache : Int × Int × Int → Option MChunk

/-- The recycled-buffer pool: pool.malloc returns a buffer whose prior contents
are arbitrary. Each texture key's three fresh buffers start with this garbage. -/
structure Pool where
  positionGarbage : Nat → Nat → Rat
  texcoordGarbage : Nat → Nat → Rat
  normalGarbage : Nat → Nat → Rat

/-- One output buffer: the next free slot and the backing array's contents. -/
structure Buf where
  offset : Nat
  data : Nat → Rat

/-- data[offset++] = v. -/
def Buf.push (b : Buf) (v : Rat) : Buf :=
  { offset := b.offset + 1, data := fun i => if i = b.offset then v else b.data i }

/-- A sequence of data[offset++] = v writes. -/
def Buf.pushList (b : Buf) (vs : List Rat) : Buf :=
  vs.foldl Buf.push b

/-- The three parallel buffers kept per texture key. -/
structure TexBufs where
  position : Buf
  texcoord : Buf
  normal : Buf

/-- The out mapping of horizontal-merge.js: texture key -> buffers, as an
association list in insertion order. -/
abbrev Out := List (Nat × TexBufs)

/-- The run accumulator: an in-progress merged strip of same-textured faces
(the JS object has fields textureValue, start, end; end is spelled stop). -/
structure Run where
  textureValue : Nat
  start : Nat × Nat × Nat
  stop : Nat × Nat × Nat
deriving DecidableEq, Repr

/-- shouldSkipFace (horizontal-merge.js lines 465-485), translated verbatim. -/
def shouldSkipFace (currentVoxelValue opposingVoxelValue : Nat) : Bool :=
  if opposingVoxelValue = 0 then
    false
  else if currentVoxelValue < 100 then
    if opposingVoxelValue > 99 then false else true
  else if opposingVoxelValue > 0 then
    true
  else
    false

/-- The coordinate adjustment at the top of isFaceBlocked (lines 414-439):
step one cell in the face's direction. -/
def faceShift (face : Face) (x y z : Int) : Int × Int × Int :=
  match face with
  | .front => (x, y, z - 1)
  | .back => (x, y, z + 1)
  | .left => (x - 1, y, z)
  | .right => (x + 1, y, z)
  | .top => (x, y + 1, z)
  | .bottom => (x, y - 1, z)

/-- The bounds test of isFaceBlocked line 441: the opposing cell lies outside
the current chunk. -/
def outsideChunk (chunkSize : Nat) (p : Int × Int × Int) : Bool :=
  decide (p.1 < 0) || decide ((chunkSize : Int) ≤ p.1) ||
  decide (p.2.1 < 0) || decide ((chunkSize : Int) ≤ p.2.1) ||
  decide (p.2.2 < 0) || decide ((chunkSize : Int) ≤ p.2.2)

/-- isFaceBlocked (horizontal-merge.js lines 410-463). The opposing cell is
computed by faceShift; an out-of-chunk cell is converted to world coordinates
and resolved through the Coordinator against the chunk cache; a missing
neighbor chunk yields false (face treated as visible). -/
def isFaceBlocked (ctx : Ctx) (basePosition : Int × Int × Int) (voxels : List Nat)
    (chunkSize : Nat) (face : Face) (x y z : Nat) (currentVoxelValue : Nat) : Bool :=
  let p := faceShift face (x : Int) (y : Int) (z : Int)
  if outsideChunk chunkSize p then
    let wx := p.1 + basePosition.1
    let wy := p.2.1 + basePosition.2.1
    let wz := p.2.2 + basePosition.2.2
    let opposingChunkID := ctx.coordinatesToChunkID wx wy wz
    let opposingIndex := ctx.coordinatesToVoxelIndex wx wy wz
    match ctx.chunkCache opposingChunkID with
    | some opposingChunk =>
        shouldSkipFace currentVoxelValue (opposingChunk.voxels.getD opposingIndex 0)
    | none => false
  else
    let index := ctx.coordinatesToVoxelIndex p.1 p.2.1 p.2.2
    shouldSkipFace currentVoxelValue (voxels.getD index 0)

/-- The 18 position floats addFace writes for a face (lines 73-393),
transcribed case by case from the six switch branches. -/
def facePositions (face : Face) (startX startY startZ endX endY endZ : Rat) : List Rat :=
  match face with
  | .back =>
      [startX, startY, startZ + 1, endX + 1, startY, startZ + 1, endX + 1, endY + 1, startZ + 1,
       startX, startY, startZ + 1, endX + 1, endY + 1, startZ + 1, startX, endY + 1, startZ + 1]
  | .front =>
      [endX + 1, startY, startZ, startX, startY, startZ, startX, endY + 1, startZ,
       endX + 1, startY, startZ, startX, endY + 1, startZ, endX + 1, endY + 1, startZ]
  | .left =>
      [startX, startY, startZ, startX, startY, endZ + 1, startX, endY + 1, endZ + 1,
       startX, startY, startZ, startX, endY + 1, endZ + 1, startX, startY + 1, startZ]
  | .right =>
      [startX + 1, startY, endZ + 1, startX + 1, startY, startZ, startX + 1, startY + 1, startZ,
       startX + 1, startY, endZ + 1, startX + 1, startY + 1, startZ, startX + 1, endY + 1, endZ + 1]
  | .top =>
      [startX, startY + 1, endZ + 1, endX + 1, startY + 1, endZ + 1, endX + 1, startY + 1, startZ,
       startX, startY + 1, endZ + 1, endX + 1, startY + 1, startZ, startX, startY + 1, startZ]
  | .bottom =>
      [startX, startY, startZ, endX + 1, startY, startZ, endX + 1, startY, endZ + 1,
       startX, startY, startZ, endX + 1, startY, endZ + 1, startX, startY, endZ + 1]

/-- The 12 texcoord floats addFace writes for a face. -/
def faceTexcoords (face : Face) (textureBottom textureTop textureRight : Rat)
    (startX startY startZ endX endY endZ : Rat) : List Rat :=
  match face with
  | .back =>
      [0, textureBottom, 1, textureBottom, 1, textureTop, 0, textureTop, 1, textureTop, 0, textureRight]
  | .front =>
      [0, 0, endX - startX + 1, 0, endX - startX + 1, endY - startY + 1,
       0, 0, endX - startX + 1, endY - startY + 1, 0, endY - startY + 1]
  | .left =>
      [0, 0, endZ - startZ + 1, 0, endZ - startZ + 1, endY - startY + 1,
       0, 0, endZ - startZ + 1, endY - startY + 1, 0, endY - startY + 1]
  | .right =>
      [0, 0, endZ - startZ + 1, 0, endZ - startZ + 1, endY - startY + 1,
       0, 0, endZ - startZ + 1, endY - startY + 1, 0, endY - startY + 1]
  | .top =>
      [0, 0, endX - startX + 1, 0, endX - startX + 1, endZ - startZ + 1,
       0, 0, endX - startX + 1, endZ - startZ + 1, 0, endZ - startZ + 1]
  | .bottom =>
      [0, 0, endX - startX + 1, 0, endX - startX + 1, endZ - startZ + 1,
       0, 0, endX - startX + 1, endZ - startZ + 1, 0, endZ - startZ + 1]

/-- The 18 normal floats addFace writes for a face: the outward unit vector
replicated six times. -/
def faceNormals (face : Face) : List Rat :=
  let n : List Rat :=
    match face with
    | .back => [0, 0, 1]
    | .front => [0, 0, -1]
    | .left => [-1, 0, 0]
    | .right => [1, 0, 0]
    | .top => [0, 1, 0]
    | .bottom => [0, -1, 0]
  n ++ n ++ n ++ n ++ n ++ n

/-- A fresh (pool-recycled) buffer: offset 0, prior contents arbitrary. -/
def freshBuf (garbage : Nat → Rat) : Buf :=
  { offset := 0, data := garbage }

/-- The `if (!(textureValue in out))` block of addFace (lines 32-58): allocate
the three buffers for a texture key not seen before. -/
def outEnsure (pool : Pool) (textureValue : Nat) (out : Out) : Out :=
  if (out.lookup textureValue).isSome then out
  else
    out ++ [(textureValue,
      { position := freshBuf (pool.positionGarbage textureValue)
        texcoord := freshBuf (pool.texcoordGarbage textureValue)
        normal := freshBuf (pool.normalGarbage textureValue) })]

/-- Update the buffers stored under one texture key. -/
def outModify (textureValue : Nat) (f : TexBufs → TexBufs) (out : Out) : Out :=
  out.map (fun p => if p.1 = textureValue then (p.1, f p.2) else p)

/-- addFace (horizontal-merge.js lines 19-394): append one quad (two triangles,
six vertices) for face over the run info into that texture's buffers. -/
def addFace (ctx : Ctx) (pool : Pool) (basePosition : Int × Int × Int)
    (face : Face) (info : Run) (out : Out) : Out :=
  let textureValue := info.textureValue
  let startX : Rat := ((basePosition.1 + (info.start.1 : Int) : Int) : Rat)
  let startY : Rat := ((basePosition.2.1 + (info.start.2.1 : Int) : Int) : Rat)
  let startZ : Rat := ((basePosition.2.2 + (info.start.2.2 : Int) : Int) : Rat)
  let endX : Rat := ((basePosition.1 + (info.stop.1 : Int) : Int) : Rat)
  let endY : Rat := ((basePosition.2.1 + (info.stop.2.1 : Int) : Int) : Rat)
  let endZ : Rat := ((basePosition.2.2 + (info.stop.2.2 : Int) : Int) : Rat)
  let offs := ctx.textureOffsets textureValue
  let posL := facePositions face startX startY startZ endX endY endZ
  let texL := faceTexcoords face offs.1 offs.2.1 offs.2.2 startX startY startZ endX endY endZ
  let norL := faceNormals face
  let out1 := outEnsure pool textureValue out
  outModify textureValue
    (fun t =>
      { position := t.position.pushList posL
        texcoord := t.texcoord.pushList texL
        normal := t.normal.pushList norL })
    out1

/-- addFaces (lines 396-402): flush every active run of the adjacent table. -/
def addFaces (ctx : Ctx) (pool : Pool) (basePosition : Int × Int × Int)
    (out : Out) (adjacent : List (Face × Option Run)) : Out :=
  adjacent.foldl
    (fun o p =>
      match p.2 with
      | some info => addFace ctx pool basePosition p.1 info o
      | none => o)
    out

/-- resetFaces (lines 404-408): clear every run of the adjacent table. -/
def resetFaces (adjacent : List (Face × Option Run)) : List (Face × Option Run) :=
  adjacent.map (fun p => (p.1, none))

/-- The flat index the sweep of calculate reads a cell at: part = y*chunkSize,
index = part + z*chunkSize*chunkSize, cell at index + x (lines 510-515; the
second pass computes part + x then adds z*chunkSize*chunkSize, the same sum,
lines 589-592). -/
def sweepIndex (chunkSize y z x : Nat) : Nat :=
  y * chunkSize + z * (chunkSize * chunkSize) + x

/-- The fallback of lines 521-524 and 598-601: a material missing from
voxelsToTextures is replaced by material 3. -/
def fallbackTextureValue (ctx : Ctx) (v : Nat) : Nat :=
  if (ctx.voxelsToTextures v).isSome then v else 3

/-- voxelsToTextures[vtv].textures[faceIndex(face)] for an already
fallback-adjusted material vtv. -/
def textureFor (ctx : Ctx) (vtv : Nat) (face : Face) : Nat :=
  match ctx.voxelsToTextures vtv with
  | some vt => vt.textures.getD (faceIndex face) 0
  | none => 0

/-- The per-face body of the sweep's inner loop (lines 529-576 and 606-653,
which are the same logic): test occlusion for one face of the current cell and
flush, start, extend or restart that face's run. Returns the new out and the
face's new run. -/
def stepFace (ctx : Ctx) (pool : Pool) (basePosition : Int × Int × Int)
    (voxels : List Nat) (x y z vtv : Nat) (out : Out) (face : Face)
    (run : Option Run) : Out × Option Run :=
  let textureValue := textureFor ctx vtv face
  let isBlocked := isFaceBlocked ctx basePosition voxels ctx.chunkSize face x y z textureValue
  if isBlocked then
    match run with
    | some info => (addFace ctx pool basePosition face info out, none)
    | none => (out, none)
  else
    match run with
    | none => (out, some { textureValue := textureValue, start := (x, y, z), stop := (x, y, z) })
    | some info =>
        if info.textureValue = textureValue then
          (out, some { info with stop := (x, y, z) })
        else
          (addFace ctx pool basePosition face info out,
           some { textureValue := textureValue, start := (x, y, z), stop := (x, y, z) })

/-- The `for (var face in adjacent)` loop: stepFace over each tracked face in
table order, threading out. -/
def stepFaces (ctx : Ctx) (pool : Pool) (basePosition : Int × Int × Int)
    (voxels : List Nat) (x y z vtv : Nat) (out : Out) :
    List (Face × Option Run) → Out × List (Face × Option Run)
  | [] => (out, [])
  | (face, run) :: rest =>
      let fr := stepFace ctx pool basePosition voxels x y z vtv out face run
      let r := stepFaces ctx pool basePosition voxels x y z vtv fr.1 rest
      (r.1, (face, fr.2) :: r.2)

/-- One cell of a sweep (both passes share this body, lines 515-576 and
592-653): an empty cell flushes and clears every run; a non-empty cell runs
stepFace for each tracked face. -/
def processCell (ctx : Ctx) (pool : Pool) (basePosition : Int × Int × Int)
    (voxels : List Nat) (y z x : Nat) (st : Out × List (Face × Option Run)) :
    Out × List (Face × Option Run) :=
  let v := voxels.getD (sweepIndex ctx.chunkSize y z x) 0
  if v = 0 then
    (addFaces ctx pool basePosition st.1 st.2, resetFaces st.2)
  else
    stepFaces ctx pool basePosition voxels x y z (fallbackTextureValue ctx v) st.1 st.2

/-- The face table of the first (X-sweep) pass, in JS object-key order. -/
def faces1 : List Face := [.front, .back, .top, .bottom]

/-- The face table of the second (Z-sweep) pass. -/
def faces2 : List Face := [.left, .right]

/-- One row of the first pass (fixed y and z, x sweeping 0..chunkSize-1,
lines 513-581): all runs start cleared and every run still active at row end
is flushed. -/
def sweepRow1 (ctx : Ctx) (pool : Pool) (basePosition : Int × Int × Int)
    (voxels : List Nat) (y z : Nat) (out : Out) : Out :=
  let st := (List.range ctx.chunkSize).foldl
    (fun st x => processCell ctx pool basePosition voxels y z x st)
    (out, faces1.map (fun f => (f, none)))
  addFaces ctx pool basePosition st.1 st.2

/-- One column of the second pass (fixed y and x, z sweeping, lines 588-659). -/
def sweepRow2 (ctx : Ctx) (pool : Pool) (basePosition : Int × Int × Int)
    (voxels : List Nat) (y x : Nat) (out : Out) : Out :=
  let st := (List.range ctx.chunkSize).foldl
    (fun st z => processCell ctx pool basePosition voxels y z x st)
    (out, faces2.map (fun f => (f, none)))
  addFaces ctx pool basePosition st.1 st.2

/-- calculate (horizontal-merge.js lines 499-662): for each y slice, the
front/back/top/bottom X-sweep pass over every z row, then the left/right
Z-sweep pass over every x column. -/
def calculate (ctx : Ctx) (pool : Pool) (basePosition : Int × Int × Int)
    (voxels : List Nat) : Out :=
  (List.range ctx.chunkSize).foldl
    (fun out y =>
      let out1 := (List.range ctx.chunkSize).foldl
        (fun o z => sweepRow1 ctx pool basePosition voxels y z o) out
      (List.range ctx.chunkSize).foldl
        (fun o x => sweepRow2 ctx pool basePosition voxels y x o) out1)
    []

/-- mesh (horizontal-merge.js lines 679-690): null on an absent or empty voxel
array, otherwise a fresh out mapping filled by calculate. -/
def mesh (ctx : Ctx) (pool : Pool) (position : Int × Int × Int)
    (voxels : Option (List Nat)) : Option Out :=
  match voxels with
  | none => none
  | some vs => if vs.length = 0 then none else some (calculate ctx pool position vs)

/-- Modelled from the spec: the Coordinate Mapper (lib/coordinates.js) is not
under src/. Spec section 4.1: chunkIdentifier floor-divides each axis by
chunkSize and keys the chunk by the resulting grid coordinates; the integer
triple itself serves as the injective key here. -/
def specCoordinatesToChunkID (chunkSize : Nat) (x y z : Int) : Int × Int × Int :=
  (x.fdiv chunkSize, y.fdiv chunkSize, z.fdiv chunkSize)

/-- Modelled from the spec: the Coordinate Mapper's voxelIndex
(lib/coordinates.js is not under src/). Spec section 3 records the mapper's
index order as y*chunkSize + z*chunkSize*chunkSize + x (its correction of
section 4.1), over floored-modulo local coordinates so negative world
coordinates map correctly; this also matches the in-chunk sweep indexing of
horizontal-merge.js. -/
def specCoordinatesToVoxelIndex (chunkSize : Nat) (x y z : Int) : Nat :=
  (y % (chunkSize : Int)).toNat * chunkSize
    + (z % (chunkSize : Int)).toNat * (chunkSize * chunkSize)
    + (x % (chunkSize : Int)).toNat

/-- The flat-index formula the claim asserts for the sweep (spec side, written
from the claim's words for comparison with sweepIndex). -/
def claimedVoxelFlatIndex (chunkSize x y z : Nat) : Nat :=
  y * chunkSize * chunkSize + z * chunkSize + x

/-- Geometric equality on one output buffer: same write count and same
contents up to it (beyond the offset lies whatever recycled pool garbage the
backing array held). -/
abbrev BufSim (b1 b2 : Buf) : Prop :=
  b1.offset = b2.offset ∧ ∀ i, i < b1.offset → b1.data i = b2.data i

/-- Geometric equality of a texture's three buffers. -/
abbrev TexBufsSim (t1 t2 : TexBufs) : Prop :=
  BufSim t1.position t2.position ∧ BufSim t1.texcoord t2.texcoord ∧
    BufSim t1.normal t2.normal

/-- Geometric equality of two out mappings: the same texture keys in the same
order, with geometrically equal buffers. -/
abbrev OutSim (o1 o2 : Out) : Prop :=
  List.Forall₂ (fun a b => a.1 = b.1 ∧ TexBufsSim a.2 b.2) o1 o2

/-- Geometric equality of two mesh results: both null, or both non-null and
geometrically equal. -/
abbrev OptOutSim : Option Out → Option Out → Prop
  | none, none => True
  | some o1, some o2 => OutSim o1 o2
  | _, _ => False

/-- A small texture table for witnesses: materials 150 and the fallback
material 3 are present. -/
def testVoxelsToTextures : Nat → Option VoxelTextures := fun v =>
  if v = 150 then some ⟨[14, 14, 14, 14, 14, 14]⟩
  else if v = 3 then some ⟨[3, 3, 3, 3, 3, 3]⟩
  else none

/-- A concrete mesher configuration for witnesses: chunkSize 2, the test
texture table, the spec-modelled Coordinator and an empty chunk cache. -/
def testCtx : Ctx :=
  { chunkSize := 2
    voxelsToTextures := testVoxelsToTextures
    textureOffsets := fun _ => (0, 1, 1)
    coordinatesToChunkID := specCoordinatesToChunkID 2
    coordinatesToVoxelIndex := specCoordinatesToVoxelIndex 2
    chunkCache := fun _ => none }

/-- testCtx with one cached neighbor chunk at grid coordinates (-1, 0, 0),
entirely opaque material 150, for the cross-chunk witness. -/
def testCtxNeighbor : Ctx :=
  { testCtx with
    chunkCache := fun cid =>
      if cid = ((-1 : Int), (0 : Int), (0 : Int)) then
        some ⟨((-2 : Int), (0 : Int), (0 : Int)), List.replicate 8 150⟩
      else none }

/-- A pool handing out zeroed buffers, for witnesses. -/
def testPool : Pool := ⟨fun _ _ => 0, fun _ _ => 0, fun _ _ => 0⟩

/-- A second pool handing out buffers full of stale garbage, for witnesses. -/
def testPoolDirty : Pool := ⟨fun _ _ => 7, fun _ _ => 8, fun _ _ => 9⟩

/-- A chunkSize-2 voxel grid whose y = 0, z = 0 row is all material 150 and
which is empty elsewhere (flat order y*2 + z*4 + x). -/
def testVoxelsRow : List Nat := [150, 150, 0, 0, 0, 0, 0, 0]

end HorizontalMerge

namespace ClientWorker

/-- The world bounding box kept in lastWorldChunks (client-worker.js lines
68-78): lower and upper corner world coordinates. -/
structure WorldBounds where
  lo : Int × Int × Int
  hi : Int × Int × Int

/-- chunkOutOfBounds (client-worker.js lines 425-437). -/
def chunkOutOfBounds (b : WorldBounds) (p : Int × Int × Int) : Bool :=
  decide (p.1 < b.lo.1) || decide (p.2.1 < b.lo.2.1) || decide (p.2.2 < b.lo.2.2) ||
  decide (p.1 > b.hi.1) || decide (p.2.1 > b.hi.2.1) || decide (p.2.2 > b.hi.2.2)

/-- A chunk entry of the worker's chunkCache. -/
structure WChunk where
  chunkID : String
  position : Int × Int × Int
  voxels : List Nat
deriving DecidableEq, Repr

/-- Insertion into a JS object used as a set (obj[k] = true): a present key is
left in place, a new key is appended. -/
def setInsert (l : List String) (a : String) : List String :=
  if a ∈ l then l else l ++ [a]

/-- Assignment m[k] = v on a JS object used as a map: a present key keeps its
slot with the new value, a new key is appended. -/
def upsert (l : List (String × Nat)) (k : String) (v : Nat) : List (String × Nat) :=
  if (l.lookup k).isSome then
    l.map (fun p => if p.1 = k then (k, v) else p)
  else
    l ++ [(k, v)]

/-- The worker's per-client visibility state (client-worker.js lines 41-78):
the tracked sets/mappings, the in-flight request set and the world bounds. -/
structure WorkerState where
  nearbyChunks : List String
  chunkDistances : List (String × Nat)
  sentClientChunks : List String
  sentClientMeshes : List String
  requestedChunks : List String
  clientMissingChunks : List String
  clientMissingMeshes : List String
  lastWorldChunks : WorldBounds

/-- One callback invocation of nearbyChunkIDsEach during regionChange: the
chunk's id, lower-corner position and distance-in-chunks from the center.
The enumerator itself lives in lib/coordinates.js, outside src/, so the
enumeration is supplied as data. -/
structure Visit where
  chunkId : String
  position : Int × Int × Int
  distance : Nat

/-- The fresh collections regionChange accumulates during the enumeration
(client-worker.js lines 172-182), plus requestedChunks, which the callback
mutates in place while enumerating (line 229). -/
structure RCAcc where
  chunkDistances : List (String × Nat)
  sentClientChunks : List String
  sentClientMeshes : List String
  clientMissingChunks : List String
  clientMissingMeshes : List String
  nearbyChunks : List String
  requestedChunks : List String

/-- The body of the nearbyChunkIDsEach callback (client-worker.js lines
220-251): skip out-of-bounds chunks; mark uncached, unrequested chunks as
requested; within distance 3 classify voxel delivery against the previous
sentClientChunks; classify mesh delivery against the previous
sentClientMeshes; record the distance. -/
def regionChangeVisit (old : WorkerState) (cacheHas : String → Bool)
    (acc : RCAcc) (v : Visit) : RCAcc :=
  if chunkOutOfBounds old.lastWorldChunks v.position then acc
  else
    { chunkDistances := upsert acc.chunkDistances v.chunkId v.distance
      sentClientChunks :=
        if v.distance < 3 ∧ v.chunkId ∈ old.sentClientChunks then
          setInsert acc.sentClientChunks v.chunkId
        else acc.sentClientChunks
      clientMissingChunks :=
        if v.distance < 3 ∧ v.chunkId ∉ old.sentClientChunks then
          setInsert acc.clientMissingChunks v.chunkId
        else acc.clientMissingChunks
      nearbyChunks :=
        if v.distance < 3 then setInsert acc.nearbyChunks v.chunkId
        else acc.nearbyChunks
      sentClientMeshes :=
        if v.chunkId ∈ old.sentClientMeshes then
          setInsert acc.sentClientMeshes v.chunkId
        else acc.sentClientMeshes
      clientMissingMeshes :=
        if v.chunkId ∈ old.sentClientMeshes then acc.clientMissingMeshes
        else setInsert acc.clientMissingMeshes v.chunkId
      requestedChunks :=
        if ¬ cacheHas v.chunkId ∧ v.chunkId ∉ acc.requestedChunks then
          setInsert acc.requestedChunks v.chunkId
        else acc.requestedChunks }

/-- regionChange (client-worker.js lines 167-280): enumerate nearby chunks into
fresh collections, replace all tracked sets wholesale, then drop in-flight
requests for chunks no longer tracked. -/
def regionChange (st : WorkerState) (cacheHas : String → Bool)
    (visits : List Visit) : WorkerState :=
  let acc0 : RCAcc :=
    { chunkDistances := []
      sentClientChunks := []
      sentClientMeshes := []
      clientMissingChunks := []
      clientMissingMeshes := []
      nearbyChunks := []
      requestedChunks := st.requestedChunks }
  let acc := visits.foldl (regionChangeVisit st cacheHas) acc0
  { st with
    nearbyChunks := acc.nearbyChunks
    chunkDistances := acc.chunkDistances
    sentClientChunks := acc.sentClientChunks
    sentClientMeshes := acc.sentClientMeshes
    clientMissingChunks := acc.clientMissingChunks
    clientMissingMeshes := acc.clientMissingMeshes
    requestedChunks :=
      acc.requestedChunks.filter (fun id => (acc.chunkDistances.lookup id).isSome) }

/-- The onload handler built by requestClosure (client-worker.js lines
185-215), as a pure transition on (requestedChunks, chunkCache): the request
entry is always dropped; an empty response commits nothing; a response for a
chunk no longer tracked (not a key of chunkDistances) is discarded; otherwise
the fetched voxels are committed to the cache. -/
def requestOnload (chunkDistances : List (String × Nat))
    (requestedChunks : List String) (chunkCache : List (String × WChunk))
    (chunkId : String) (position : Int × Int × Int)
    (response : Option (List Nat)) : List String × List (String × WChunk) :=
  let requested := requestedChunks.filter (fun id => id ≠ chunkId)
  match response with
  | none => (requested, chunkCache)
  | some bytes =>
      if (chunkDistances.lookup chunkId).isNone then (requested, chunkCache)
      else
        (requested,
         if (chunkCache.lookup chunkId).isSome then
           chunkCache.map (fun p =>
             if p.1 = chunkId then (chunkId, ⟨chunkId, position, bytes⟩) else p)
         else chunkCache ++ [(chunkId, ⟨chunkId, position, bytes⟩)])

/-- The mesh-delivery loop of processChunks (client-worker.js lines 301-354):
walk the missing-mesh keys with their index i, skip chunks whose voxel data is
not cached, deliver the rest, and break after the delivery at index i once
i > 9. Returns the chunk ids delivered this tick. -/
def processChunksMeshLoop (cached : String → Bool) : Nat → List String → List String
  | _, [] => []
  | i, chunkId :: rest =>
      if cached chunkId then
        if i > 9 then [chunkId]
        else chunkId :: processChunksMeshLoop cached (i + 1) rest
      else processChunksMeshLoop cached (i + 1) rest

/-- The chunk meshes delivered by one processChunks tick, given the
missing-mesh key list and cache membership. -/
def processChunksMeshDeliveries (cached : String → Bool) (chunkIds : List String) :
    List String :=
  processChunksMeshLoop cached 0 chunkIds

/-- The partition property checked after regionChange: every tracked chunk id
is in exactly one of the two mesh-delivery sets, with classifications drawn
from the previous sentClientMeshes. -/
def meshPartitionInv (oldSent : List String) (acc : RCAcc) : Prop :=
  (∀ id : String, ((acc.chunkDistances.lookup id).isSome ↔
      (id ∈ acc.sentClientMeshes ∨ id ∈ acc.clientMissingMeshes)))
  ∧ (∀ id : String, id ∈ acc.sentClientMeshes → id ∈ oldSent)
  ∧ (∀ id : String, id ∈ acc.clientMissingMeshes → id ∉ oldSent)

/-- A concrete worker state for witnesses: meshes a and b already sent, a
world box wide enough for the test positions. -/
def testWorkerState : WorkerState :=
  { nearbyChunks := []
    chunkDistances := []
    sentClientChunks := []
    sentClientMeshes := ["a", "b"]
    requestedChunks := []
    clientMissingChunks := []
    clientMissingMeshes := []
    lastWorldChunks := ⟨(-64, -64, -64), (64, 64, 64)⟩ }

end ClientWorker

end Voxeling

namespace Voxeling

namespace HorizontalMerge

/-- C1: evaluating shouldSkipFace on the transparent/opaque pair of the claim:
for a transparent current voxel (50) against an opaque opposing voxel (150) the
code returns false, so the transparent face IS emitted; for an opaque current
voxel (150) against a transparent non-empty opposing voxel (50) the code
returns true, so the opaque face is NOT emitted. Both directions are the
opposite of the claim and of the code's own comment (lines 470-472). -/
theorem shouldSkipFace_transparent_opaque_eval :
    shouldSkipFace 50 150 = false ∧ shouldSkipFace 150 50 = true := by
  decide

/-- C2 counterexample: at chunkSize 2 and local cell (x, y, z) = (0, 1, 0) the
sweep of calculate reads flat index 2 (sweepIndex), while the claimed formula
y*chunkSize*chunkSize + z*chunkSize + x gives 4, so the claim is false as
stated. -/
theorem sweepIndex_claim_counterexample :
    sweepIndex 2 1 0 0 = 2 ∧ claimedVoxelFlatIndex 2 0 1 0 = 4 ∧
      sweepIndex 2 1 0 0 ≠ claimedVoxelFlatIndex 2 0 1 0 := by
  decide

/-- C2 (amended): for every in-range local cell the flat index the sweep reads,
sweepIndex chunkSize y z x = y*chunkSize + z*chunkSize*chunkSize + x, agrees
with the Coordinate Mapper's voxelIndex (spec-modelled) at those local
coordinates. -/
theorem sweepIndex_matches_mapper (chunkSize x y z : Nat)
    (hx : x < chunkSize) (hy : y < chunkSize) (hz : z < chunkSize) :
    sweepIndex chunkSize y z x
      = specCoordinatesToVoxelIndex chunkSize (x : Int) (y : Int) (z : Int) := by
  have hxm : ((x : Int) % (chunkSize : Int)).toNat = x := by
    rw [Int.emod_eq_of_lt (by positivity) (by exact_mod_cast hx)]
    exact Int.toNat_natCast x
  have hym : ((y : Int) % (chunkSize : Int)).toNat = y := by
    rw [Int.emod_eq_of_lt (by positivity) (by exact_mod_cast hy)]
    exact Int.toNat_natCast y
  have hzm : ((z : Int) % (chunkSize : Int)).toNat = z := by
    rw [Int.emod_eq_of_lt (by positivity) (by exact_mod_cast hz)]
    exact Int.toNat_natCast z
  simp [sweepIndex, specCoordinatesToVoxelIndex, hxm, hym, hzm]

/-- C2 witness: the amended agreement at chunkSize 2 and cell (1, 1, 0). -/
theorem sweepIndex_matches_mapper_witness :
    (1 < 2 ∧ 1 < 2 ∧ 0 < 2) ∧
      sweepIndex 2 1 0 1 = specCoordinatesToVoxelIndex 2 (1 : Int) (1 : Int) (0 : Int) :=
  ⟨by decide, sweepIndex_matches_mapper 2 1 1 0 (by decide) (by decide) (by decide)⟩

/-- C4: for a boundary face whose opposing cell lies outside the current
chunk, isFaceBlocked resolves the neighbor through the Coordinate Mapper on
the world coordinates: a cached neighbor chunk decides the face by
shouldSkipFace against its boundary voxel, and a missing neighbor chunk gives
false, treating the face as conservatively visible. -/
theorem isFaceBlocked_cross_chunk (ctx : Ctx) (basePosition : Int × Int × Int)
    (voxels : List Nat) (chunkSize : Nat) (face : Face) (x y z : Nat)
    (currentVoxelValue : Nat)
    (hout : outsideChunk chunkSize (faceShift face (x : Int) (y : Int) (z : Int)) = true) :
    isFaceBlocked ctx basePosition voxels chunkSize face x y z currentVoxelValue
      = (match ctx.chunkCache (ctx.coordinatesToChunkID
            ((faceShift face (x : Int) (y : Int) (z : Int)).1 + basePosition.1)
            ((faceShift face (x : Int) (y : Int) (z : Int)).2.1 + basePosition.2.1)
            ((faceShift face (x : Int) (y : Int) (z : Int)).2.2 + basePosition.2.2)) with
        | some opposingChunk =>
            shouldSkipFace currentVoxelValue
              (opposingChunk.voxels.getD
                (ctx.coordinatesToVoxelIndex
                  ((faceShift face (x : Int) (y : Int) (z : Int)).1 + basePosition.1)
                  ((faceShift face (x : Int) (y : Int) (z : Int)).2.1 + basePosition.2.1)
                  ((faceShift face (x : Int) (y : Int) (z : Int)).2.2 + basePosition.2.2)) 0)
        | none => false) := by
  unfold isFaceBlocked
  simp only [hout, if_true]

/-- C4 witness: the left face of the corner cell (0, 0, 0) of a chunkSize-2
chunk at the origin; the opposing cell is in the neighbor chunk at grid
(-1, 0, 0), which testCtxNeighbor caches as all-opaque. -/
theorem isFaceBlocked_cross_chunk_witness :
    (outsideChunk 2 (faceShift Face.left ((0 : Nat) : Int) ((0 : Nat) : Int) ((0 : Nat) : Int)) = true) ∧
    isFaceBlocked testCtxNeighbor (0, 0, 0) (List.replicate 8 50) 2 Face.left 0 0 0 50
      = (match testCtxNeighbor.chunkCache (testCtxNeighbor.coordinatesToChunkID
            ((faceShift Face.left ((0 : Nat) : Int) ((0 : Nat) : Int) ((0 : Nat) : Int)).1 + (0 : Int))
            ((faceShift Face.left ((0 : Nat) : Int) ((0 : Nat) : Int) ((0 : Nat) : Int)).2.1 + (0 : Int))
            ((faceShift Face.left ((0 : Nat) : Int) ((0 : Nat) : Int) ((0 : Nat) : Int)).2.2 + (0 : Int))) with
        | some opposingChunk =>
            shouldSkipFace 50
              (opposingChunk.voxels.getD
                (testCtxNeighbor.coordinatesToVoxelIndex
                  ((faceShift Face.left ((0 : Nat) : Int) ((0 : Nat) : Int) ((0 : Nat) : Int)).1 + (0 : Int))
                  ((faceShift Face.left ((0 : Nat) : Int) ((0 : Nat) : Int) ((0 : Nat) : Int)).2.1 + (0 : Int))
                  ((faceShift Face.left ((0 : Nat) : Int) ((0 : Nat) : Int) ((0 : Nat) : Int)).2.2 + (0 : Int))) 0)
        | none => false) :=
  ⟨by decide,
   isFaceBlocked_cross_chunk testCtxNeighbor (0, 0, 0) (List.replicate 8 50) 2
     Face.left 0 0 0 50 (by decide)⟩

/-- An unblocked face of a cell with no active run starts a unit run at the
cell without emitting anything. -/
theorem stepFace_start (ctx : Ctx) (pool : Pool) (bp : Int × Int × Int)
    (voxels : List Nat) (x y z vtv : Nat) (out : Out) (face : Face)
    (h : isFaceBlocked ctx bp voxels ctx.chunkSize face x y z
      (textureFor ctx vtv face) = false) :
    stepFace ctx pool bp voxels x y z vtv out face none
      = (out, some { textureValue := textureFor ctx vtv face,
                     start := (x, y, z), stop := (x, y, z) }) := by
  simp [stepFace, h]

/-- An unblocked face whose active run carries the same texture extends the
run's end to the current cell without emitting anything. -/
theorem stepFace_extend (ctx : Ctx) (pool : Pool) (bp : Int × Int × Int)
    (voxels : List Nat) (x y z vtv : Nat) (out : Out) (face : Face)
    (s e : Nat × Nat × Nat)
    (h : isFaceBlocked ctx bp voxels ctx.chunkSize face x y z
      (textureFor ctx vtv face) = false) :
    stepFace ctx pool bp voxels x y z vtv out face
        (some { textureValue := textureFor ctx vtv face, start := s, stop := e })
      = (out, some { textureValue := textureFor ctx vtv face,
                     start := s, stop := (x, y, z) }) := by
  simp [stepFace, h]

/-- stepFaces over a per-face run table, when each face's step leaves the out
mapping unchanged and maps its run pointwise. -/
theorem stepFaces_map (ctx : Ctx) (pool : Pool) (bp : Int × Int × Int)
    (voxels : List Nat) (x y z vtv : Nat) (out : Out)
    (fl : List Face) (g g' : Face → Option Run)
    (h : ∀ f ∈ fl, stepFace ctx pool bp voxels x y z vtv out f (g f) = (out, g' f)) :
    stepFaces ctx pool bp voxels x y z vtv out (fl.map fun f => (f, g f))
      = (out, fl.map fun f => (f, g' f)) := by
  induction fl with
  | nil => rfl
  | cons f rest ih =>
      have hf := h f (List.mem_cons_self f rest)
      have hrest := fun f' hf' => h f' (List.mem_cons_of_mem f hf')
      simp only [List.map_cons, stepFaces, hf, ih hrest]

/-- A non-empty cell whose faces are all unblocked turns an all-cleared run
table into unit runs at the cell. -/
theorem processCell_start (ctx : Ctx) (pool : Pool) (bp : Int × Int × Int)
    (voxels : List Nat) (y z x v : Nat) (fl : List Face) (out : Out)
    (hx : voxels.getD (sweepIndex ctx.chunkSize y z x) 0 = v) (hv : v ≠ 0)
    (hnbx : ∀ f ∈ fl, isFaceBlocked ctx bp voxels ctx.chunkSize f x y z
      (textureFor ctx (fallbackTextureValue ctx v) f) = false) :
    processCell ctx pool bp voxels y z x (out, fl.map fun f => (f, none))
      = (out, fl.map fun f =>
          (f, some { textureValue := textureFor ctx (fallbackTextureValue ctx v) f,
                     start := (x, y, z), stop := (x, y, z) })) := by
  simp only [processCell, hx]
  rw [if_neg hv]
  exact stepFaces_map ctx pool bp voxels x y z (fallbackTextureValue ctx v) out fl
    (fun _ => none) _
    (fun f hf => stepFace_start ctx pool bp voxels x y z
      (fallbackTextureValue ctx v) out f (hnbx f hf))

/-- A non-empty cell whose faces are all unblocked and match the active runs'
textures extends every run's end to the cell. -/
theorem processCell_extend (ctx : Ctx) (pool : Pool) (bp : Int × Int × Int)
    (voxels : List Nat) (y z x v : Nat) (fl : List Face)
    (s e : Nat × Nat × Nat) (out : Out)
    (hx : voxels.getD (sweepIndex ctx.chunkSize y z x) 0 = v) (hv : v ≠ 0)
    (hnbx : ∀ f ∈ fl, isFaceBlocked ctx bp voxels ctx.chunkSize f x y z
      (textureFor ctx (fallbackTextureValue ctx v) f) = false) :
    processCell ctx pool bp voxels y z x
        (out, fl.map fun f =>
          (f, some { textureValue := textureFor ctx (fallbackTextureValue ctx v) f,
                     start := s, stop := e }))
      = (out, fl.map fun f =>
          (f, some { textureValue := textureFor ctx (fallbackTextureValue ctx v) f,
                     start := s, stop := (x, y, z) })) := by
  simp only [processCell, hx]
  rw [if_neg hv]
  exact stepFaces_map ctx pool bp voxels x y z (fallbackTextureValue ctx v) out fl
    (fun f => some { textureValue := textureFor ctx (fallbackTextureValue ctx v) f,
                     start := s, stop := e }) _
    (fun f hf => stepFace_extend ctx pool bp voxels x y z
      (fallbackTextureValue ctx v) out f s e (hnbx f hf))

/-- The first k cells of a uniform, fully unblocked row leave the out mapping
untouched and all four runs spanning cells 0..k-1. -/
theorem sweepRow1_fold_full (ctx : Ctx) (pool : Pool) (bp : Int × Int × Int)
    (voxels : List Nat) (y z v : Nat) (out : Out)
    (hval : ∀ x, x < ctx.chunkSize →
      voxels.getD (sweepIndex ctx.chunkSize y z x) 0 = v)
    (hv : v ≠ 0)
    (hnb : ∀ f ∈ faces1, ∀ x, x < ctx.chunkSize →
      isFaceBlocked ctx bp voxels ctx.chunkSize f x y z
        (textureFor ctx (fallbackTextureValue ctx v) f) = false) :
    ∀ k, 1 ≤ k → k ≤ ctx.chunkSize →
    (List.range k).foldl (fun st x => processCell ctx pool bp voxels y z x st)
        (out, faces1.map fun f => (f, none))
      = (out, faces1.map fun f =>
          (f, some { textureValue := textureFor ctx (fallbackTextureValue ctx v) f,
                     start := (0, y, z), stop := (k - 1, y, z) })) := by
  intro k
  induction k with
  | zero => omega
  | succ n ih =>
      intro _ hn
      rcases Nat.eq_zero_or_pos n with hn0 | hn0
      · subst hn0
        simp only [List.range_succ, List.range_zero, List.nil_append,
          List.foldl_cons, List.foldl_nil]
        exact processCell_start ctx pool bp voxels y z 0 v faces1 out
          (hval 0 hn) hv (fun f hf => hnb f hf 0 hn)
      · rw [List.range_succ, List.foldl_append,
          ih hn0 (Nat.le_of_lt hn)]
        simp only [List.foldl_cons, List.foldl_nil]
        have hcell := processCell_extend ctx pool bp voxels y z n v faces1
          (0, y, z) (n - 1, y, z) out (hval n hn) hv (fun f hf => hnb f hf n hn)
        rw [hcell]
        simp only [Nat.add_sub_cancel]

/-- C3: a row of identical non-empty material along the X sweep whose
front/back/top/bottom faces are all unblocked yields, for each of the four
face directions, exactly one flush of a single run spanning the whole row
(one addFace call per direction, six vertices each): sweepRow1 equals
addFaces over the four full-row runs, with nothing emitted during the sweep
itself. -/
theorem sweepRow1_full_row_single_quad (ctx : Ctx) (pool : Pool)
    (bp : Int × Int × Int) (voxels : List Nat) (y z v : Nat) (out : Out)
    (hcs : 0 < ctx.chunkSize)
    (hval : ∀ x, x < ctx.chunkSize →
      voxels.getD (sweepIndex ctx.chunkSize y z x) 0 = v)
    (hv : v ≠ 0)
    (hnb : ∀ f ∈ faces1, ∀ x, x < ctx.chunkSize →
      isFaceBlocked ctx bp voxels ctx.chunkSize f x y z
        (textureFor ctx (fallbackTextureValue ctx v) f) = false) :
    sweepRow1 ctx pool bp voxels y z out
      = addFaces ctx pool bp out (faces1.map fun f =>
          (f, some { textureValue := textureFor ctx (fallbackTextureValue ctx v) f,
                     start := (0, y, z), stop := (ctx.chunkSize - 1, y, z) })) := by
  unfold sweepRow1
  rw [sweepRow1_fold_full ctx pool bp voxels y z v out hval hv hnb
    ctx.chunkSize hcs le_rfl]

/-- C3 witness: the all-150 row y = 0, z = 0 of testVoxelsRow in a chunkSize-2
chunk with no cached neighbors merges into one quad per face direction. -/
theorem sweepRow1_full_row_single_quad_witness :
    (0 < testCtx.chunkSize ∧
      (∀ x, x < testCtx.chunkSize →
        testVoxelsRow.getD (sweepIndex testCtx.chunkSize 0 0 x) 0 = 150) ∧
      (150 : Nat) ≠ 0 ∧
      (∀ f ∈ faces1, ∀ x, x < testCtx.chunkSize →
        isFaceBlocked testCtx (0, 0, 0) testVoxelsRow testCtx.chunkSize f x 0 0
          (textureFor testCtx (fallbackTextureValue testCtx 150) f) = false)) ∧
    sweepRow1 testCtx testPool (0, 0, 0) testVoxelsRow 0 0 []
      = addFaces testCtx testPool (0, 0, 0) [] (faces1.map fun f =>
          (f, some { textureValue := textureFor testCtx (fallbackTextureValue testCtx 150) f,
                     start := (0, 0, 0), stop := (testCtx.chunkSize - 1, 0, 0) })) :=
  ⟨by decide,
   sweepRow1_full_row_single_quad testCtx testPool (0, 0, 0) testVoxelsRow 0 0 150 []
     (by decide) (by decide) (by decide) (by decide)⟩

/-- C7: mesh returns null exactly when the voxels argument is absent or has
length zero; any non-empty voxel grid yields a (possibly empty) output
mapping, not null. -/
theorem mesh_none_iff (ctx : Ctx) (pool : Pool) (position : Int × Int × Int)
    (voxels : Option (List Nat)) :
    mesh ctx pool position voxels = none ↔ (voxels = none ∨ voxels = some []) := by
  cases voxels with
  | none => simp [mesh]
  | some vs =>
      cases vs with
      | nil => simp [mesh]
      | cons a l => simp [mesh]

/-- Writing the same value into geometrically equal buffers preserves their
equality. -/
theorem bufSim_push {b1 b2 : Buf} (h : BufSim b1 b2) (v : Rat) :
    BufSim (b1.push v) (b2.push v) := by
  obtain ⟨ho, hd⟩ := h
  constructor
  · simp [Buf.push, ho]
  · intro i hi
    simp only [Buf.push] at hi ⊢
    rw [← ho]
    by_cases hio : i = b1.offset
    · simp [hio]
    · have hlt : i < b1.offset := by omega
      simp only [if_neg hio]
      exact hd i hlt

/-- Writing the same value list preserves buffer equality. -/
theorem bufSim_pushList {b1 b2 : Buf} (h : BufSim b1 b2) (vs : List Rat) :
    BufSim (b1.pushList vs) (b2.pushList vs) := by
  induction vs generalizing b1 b2 with
  | nil => exact h
  | cons v rest ih =>
      simp only [Buf.pushList, List.foldl_cons]
      exact ih (bufSim_push h v)

/-- Looking up the same key in geometrically equal out mappings succeeds on
both or neither. -/
theorem outSim_lookup_isSome {o1 o2 : Out} (h : OutSim o1 o2) (t : Nat) :
    (o1.lookup t).isSome = (o2.lookup t).isSome := by
  induction h with
  | nil => rfl
  | cons hp hrest ih =>
      rename_i a b l1 l2
      obtain ⟨k1, t1⟩ := a
      obtain ⟨k2, t2⟩ := b
      obtain ⟨hk, hsim⟩ := hp
      simp only at hk
      subst hk
      simp only [List.lookup]
      cases t == k1 with
      | true => rfl
      | false => exact ih

/-- outEnsure with the same texture key preserves geometric equality, whatever
garbage each pool's fresh buffers carry. -/
theorem outSim_ensure {o1 o2 : Out} (p1 p2 : Pool) (t : Nat) (h : OutSim o1 o2) :
    OutSim (outEnsure p1 t o1) (outEnsure p2 t o2) := by
  unfold outEnsure
  rw [outSim_lookup_isSome h t]
  split
  · exact h
  · refine List.rel_append h (List.Forall₂.cons ?_ List.Forall₂.nil)
    exact ⟨rfl,
      ⟨rfl, fun i hi => absurd hi (Nat.not_lt_zero i)⟩,
      ⟨rfl, fun i hi => absurd hi (Nat.not_lt_zero i)⟩,
      ⟨rfl, fun i hi => absurd hi (Nat.not_lt_zero i)⟩⟩

/-- outModify with buffer-equality-preserving updates preserves geometric
equality. -/
theorem outSim_modify {o1 o2 : Out} (t : Nat) (f1 f2 : TexBufs → TexBufs)
    (hf : ∀ a b, TexBufsSim a b → TexBufsSim (f1 a) (f2 b)) (h : OutSim o1 o2) :
    OutSim (outModify t f1 o1) (outModify t f2 o2) := by
  unfold outModify
  induction h with
  | nil => exact List.Forall₂.nil
  | cons hp hrest ih =>
      rename_i a b l1 l2
      obtain ⟨k1, t1⟩ := a
      obtain ⟨k2, t2⟩ := b
      obtain ⟨hk, hsim⟩ := hp
      simp only at hk
      subst hk
      simp only [List.map_cons]
      refine List.Forall₂.cons ?_ ih
      by_cases hkt : k1 = t
      · simp only [hkt, if_pos rfl]
        exact ⟨rfl, hf _ _ hsim⟩
      · simp only [if_neg hkt]
        exact ⟨by simp, hsim⟩

/-- addFace with identical geometry arguments preserves geometric equality of
the out mappings, independently of the pools. -/
theorem outSim_addFace (ctx : Ctx) (p1 p2 : Pool) (bp : Int × Int × Int)
    (face : Face) (info : Run) {o1 o2 : Out} (h : OutSim o1 o2) :
    OutSim (addFace ctx p1 bp face info o1) (addFace ctx p2 bp face info o2) := by
  unfold addFace
  refine outSim_modify _ _ _ ?_ (outSim_ensure p1 p2 _ h)
  intro a b hab
  exact ⟨bufSim_pushList hab.1 _, bufSim_pushList hab.2.1 _, bufSim_pushList hab.2.2 _⟩

/-- addFaces over the same run table preserves geometric equality. -/
theorem outSim_addFaces (ctx : Ctx) (p1 p2 : Pool) (bp : Int × Int × Int)
    (adjacent : List (Face × Option Run)) :
    ∀ {o1 o2 : Out}, OutSim o1 o2 →
      OutSim (addFaces ctx p1 bp o1 adjacent) (addFaces ctx p2 bp o2 adjacent) := by
  induction adjacent with
  | nil => intro o1 o2 h; exact h
  | cons p rest ih =>
      intro o1 o2 h
      have hstep : OutSim
          (match p.2 with
            | some info => addFace ctx p1 bp p.1 info o1
            | none => o1)
          (match p.2 with
            | some info => addFace ctx p2 bp p.1 info o2
            | none => o2) := by
        cases p.2 with
        | none => exact h
        | some info => exact outSim_addFace ctx p1 p2 bp p.1 info h
      exact ih hstep

/-- stepFace: the out mappings stay geometrically equal and the resulting run
is identical (the run never depends on the pool or the buffers). -/
theorem stepFace_sim (ctx : Ctx) (p1 p2 : Pool) (bp : Int × Int × Int)
    (voxels : List Nat) (x y z vtv : Nat) (face : Face) (run : Option Run)
    {o1 o2 : Out} (h : OutSim o1 o2) :
    OutSim (stepFace ctx p1 bp voxels x y z vtv o1 face run).1
        (stepFace ctx p2 bp voxels x y z vtv o2 face run).1
      ∧ (stepFace ctx p1 bp voxels x y z vtv o1 face run).2
          = (stepFace ctx p2 bp voxels x y z vtv o2 face run).2 := by
  cases run with
  | none =>
      simp only [stepFace]
      split
      · exact ⟨h, rfl⟩
      · exact ⟨h, rfl⟩
  | some info =>
      simp only [stepFace]
      split
      · exact ⟨outSim_addFace ctx p1 p2 bp face info h, rfl⟩
      · split
        · exact ⟨h, rfl⟩
        · exact ⟨outSim_addFace ctx p1 p2 bp face info h, rfl⟩

/-- stepFaces: geometric equality of the outs and equality of the run tables
are preserved. -/
theorem stepFaces_sim (ctx : Ctx) (p1 p2 : Pool) (bp : Int × Int × Int)
    (voxels : List Nat) (x y z vtv : Nat)
    (adjacent : List (Face × Option Run)) :
    ∀ {o1 o2 : Out}, OutSim o1 o2 →
      OutSim (stepFaces ctx p1 bp voxels x y z vtv o1 adjacent).1
          (stepFaces ctx p2 bp voxels x y z vtv o2 adjacent).1
        ∧ (stepFaces ctx p1 bp voxels x y z vtv o1 adjacent).2
            = (stepFaces ctx p2 bp voxels x y z vtv o2 adjacent).2 := by
  induction adjacent with
  | nil => intro o1 o2 h; exact ⟨h, rfl⟩
  | cons p rest ih =>
      intro o1 o2 h
      obtain ⟨face, run⟩ := p
      obtain ⟨h1, h2⟩ := stepFace_sim ctx p1 p2 bp voxels x y z vtv face run h
      obtain ⟨h3, h4⟩ := ih h1
      simp only [stepFaces]
      exact ⟨h3, by rw [h2, h4]⟩

/-- processCell preserves geometric equality of the outs and equality of the
run tables. -/
theorem processCell_sim (ctx : Ctx) (p1 p2 : Pool) (bp : Int × Int × Int)
    (voxels : List Nat) (y z x : Nat)
    (s1 s2 : Out × List (Face × Option Run))
    (h : OutSim s1.1 s2.1) (hadj : s1.2 = s2.2) :
    OutSim (processCell ctx p1 bp voxels y z x s1).1
        (processCell ctx p2 bp voxels y z x s2).1
      ∧ (processCell ctx p1 bp voxels y z x s1).2
          = (processCell ctx p2 bp voxels y z x s2).2 := by
  simp only [processCell, hadj]
  split
  · exact ⟨outSim_addFaces ctx p1 p2 bp s2.2 h, rfl⟩
  · exact stepFaces_sim ctx p1 p2 bp voxels x y z _ s2.2 h

/-- A fold preserves any relation its step preserves. -/
theorem foldl_sim {α β : Type} (R : α → α → Prop) (f g : α → β → α)
    (hfg : ∀ a b x, R a b → R (f a x) (g b x)) :
    ∀ (l : List β) (a b : α), R a b → R (l.foldl f a) (l.foldl g b) := by
  intro l
  induction l with
  | nil => intro a b h; exact h
  | cons x rest ih => intro a b h; exact ih _ _ (hfg a b x h)

/-- The first-pass row sweep preserves geometric equality. -/
theorem sweepRow1_sim (ctx : Ctx) (p1 p2 : Pool) (bp : Int × Int × Int)
    (voxels : List Nat) (y z : Nat) {o1 o2 : Out} (h : OutSim o1 o2) :
    OutSim (sweepRow1 ctx p1 bp voxels y z o1) (sweepRow1 ctx p2 bp voxels y z o2) := by
  simp only [sweepRow1]
  have hfold := foldl_sim
    (fun s1 s2 : Out × List (Face × Option Run) => OutSim s1.1 s2.1 ∧ s1.2 = s2.2)
    (fun st x => processCell ctx p1 bp voxels y z x st)
    (fun st x => processCell ctx p2 bp voxels y z x st)
    (fun a b x hab => processCell_sim ctx p1 p2 bp voxels y z x a b hab.1 hab.2)
    (List.range ctx.chunkSize)
    (o1, faces1.map fun f => (f, none)) (o2, faces1.map fun f => (f, none))
    ⟨h, rfl⟩
  rw [hfold.2]
  exact outSim_addFaces ctx p1 p2 bp _ hfold.1

/-- The second-pass column sweep preserves geometric equality. -/
theorem sweepRow2_sim (ctx : Ctx) (p1 p2 : Pool) (bp : Int × Int × Int)
    (voxels : List Nat) (y x : Nat) {o1 o2 : Out} (h : OutSim o1 o2) :
    OutSim (sweepRow2 ctx p1 bp voxels y x o1) (sweepRow2 ctx p2 bp voxels y x o2) := by
  simp only [sweepRow2]
  have hfold := foldl_sim
    (fun s1 s2 : Out × List (Face × Option Run) => OutSim s1.1 s2.1 ∧ s1.2 = s2.2)
    (fun st z => processCell ctx p1 bp voxels y z x st)
    (fun st z => processCell ctx p2 bp voxels y z x st)
    (fun a b z hab => processCell_sim ctx p1 p2 bp voxels y z x a b hab.1 hab.2)
    (List.range ctx.chunkSize)
    (o1, faces2.map fun f => (f, none)) (o2, faces2.map fun f => (f, none))
    ⟨h, rfl⟩
  rw [hfold.2]
  exact outSim_addFaces ctx p1 p2 bp _ hfold.1

/-- calculate produces geometrically equal outputs whatever recycled garbage
each pool's buffers start with. -/
theorem calculate_sim (ctx : Ctx) (p1 p2 : Pool) (bp : Int × Int × Int)
    (voxels : List Nat) :
    OutSim (calculate ctx p1 bp voxels) (calculate ctx p2 bp voxels) := by
  unfold calculate
  refine foldl_sim OutSim _ _ ?_ (List.range ctx.chunkSize) [] [] List.Forall₂.nil
  intro a b y hab
  have h1 := foldl_sim OutSim
    (fun o z => sweepRow1 ctx p1 bp voxels y z o)
    (fun o z => sweepRow1 ctx p2 bp voxels y z o)
    (fun a b z hab => sweepRow1_sim ctx p1 p2 bp voxels y z hab)
    (List.range ctx.chunkSize) a b hab
  exact foldl_sim OutSim
    (fun o x => sweepRow2 ctx p1 bp voxels y x o)
    (fun o x => sweepRow2 ctx p2 bp voxels y x o)
    (fun a b x hab => sweepRow2_sim ctx p1 p2 bp voxels y x hab)
    (List.range ctx.chunkSize) _ _ h1

/-- C9: two mesh calls on identical position and voxel inputs, with the same
configuration and chunk cache (no intervening cache mutation), give
geometrically identical output: both null, or, per texture key in the same
order, equal position/texcoord/normal offsets and equal buffer contents below
each offset. The two pool arguments carry the only state that may differ
between the calls: the recycled garbage in the pooled buffers. -/
theorem mesh_deterministic (ctx : Ctx) (p1 p2 : Pool) (position : Int × Int × Int)
    (voxels : Option (List Nat)) :
    OptOutSim (mesh ctx p1 position voxels) (mesh ctx p2 position voxels) := by
  cases voxels with
  | none => trivial
  | some vs =>
      simp only [mesh]
      split
      · trivial
      · exact calculate_sim ctx p1 p2 position vs

/-- C9 witness: meshing the single-row chunk with a zeroed pool and a dirty
pool gives geometrically identical results. -/
theorem mesh_deterministic_witness :
    OptOutSim (mesh testCtx testPool (0, 0, 0) (some testVoxelsRow))
      (mesh testCtx testPoolDirty (0, 0, 0) (some testVoxelsRow)) :=
  mesh_deterministic testCtx testPool testPoolDirty (0, 0, 0) (some testVoxelsRow)

end HorizontalMerge

namespace ClientWorker

/-- Membership after inserting into a JS-object set. -/
theorem mem_setInsert {l : List String} {a b : String} :
    b ∈ setInsert l a ↔ b ∈ l ∨ b = a := by
  unfold setInsert
  split
  · rename_i h
    constructor
    · exact Or.inl
    · rintro (hb | rfl)
      · exact hb
      · exact h
  · simp

/-- A lookup succeeds exactly when the key occurs in the key list. -/
theorem lookup_isSome_iff (l : List (String × Nat)) (k : String) :
    (l.lookup k).isSome ↔ k ∈ l.map Prod.fst := by
  induction l with
  | nil => simp
  | cons p rest ih =>
      rcases p with ⟨a, b⟩
      by_cases h : k = a
      · subst h
        simp [List.lookup]
      · simp [List.lookup, beq_false_of_ne h, h, ih]

/-- The keys of upsert: unchanged for a present key, appended otherwise. -/
theorem upsert_keys (l : List (String × Nat)) (k : String) (v : Nat) :
    (upsert l k v).map Prod.fst
      = if (l.lookup k).isSome then l.map Prod.fst else l.map Prod.fst ++ [k] := by
  unfold upsert
  split
  · rw [List.map_map]
    apply List.map_congr_left
    intro p _
    by_cases hp : p.1 = k
    · simp [Function.comp, hp]
    · simp [Function.comp, hp]
  · simp

/-- Lookup success after upsert. -/
theorem lookup_upsert_isSome (l : List (String × Nat)) (k k' : String) (v : Nat) :
    ((upsert l k v).lookup k').isSome ↔ ((l.lookup k').isSome ∨ k' = k) := by
  rw [lookup_isSome_iff, upsert_keys]
  split
  · rename_i h
    rw [← lookup_isSome_iff]
    constructor
    · exact Or.inl
    · rintro (hb | rfl)
      · exact hb
      · exact h
  · rw [List.mem_append, ← lookup_isSome_iff]
    simp

/-- One enumeration step preserves the mesh partition property. -/
theorem meshPartitionInv_step (old : WorkerState) (cacheHas : String → Bool)
    (acc : RCAcc) (v : Visit) (h : meshPartitionInv old.sentClientMeshes acc) :
    meshPartitionInv old.sentClientMeshes (regionChangeVisit old cacheHas acc v) := by
  obtain ⟨h1, h2, h3⟩ := h
  unfold regionChangeVisit
  split
  · exact ⟨h1, h2, h3⟩
  · by_cases hm : v.chunkId ∈ old.sentClientMeshes
    · refine ⟨?_, ?_, ?_⟩
      · intro id
        simp only [if_pos hm]
        rw [lookup_upsert_isSome, mem_setInsert, h1 id]
        tauto
      · intro id hid
        simp only [if_pos hm] at hid
        rcases mem_setInsert.mp hid with hb | rfl
        · exact h2 id hb
        · exact hm
      · intro id hid
        simp only [if_pos hm] at hid
        exact h3 id hid
    · refine ⟨?_, ?_, ?_⟩
      · intro id
        simp only [if_neg hm]
        rw [lookup_upsert_isSome, mem_setInsert, h1 id]
        tauto
      · intro id hid
        simp only [if_neg hm] at hid
        exact h2 id hid
      · intro id hid
        simp only [if_neg hm] at hid
        rcases mem_setInsert.mp hid with hb | rfl
        · exact h3 id hb
        · exact hm

/-- The whole enumeration preserves the mesh partition property. -/
theorem meshPartitionInv_foldl (old : WorkerState) (cacheHas : String → Bool)
    (visits : List Visit) (acc : RCAcc)
    (h : meshPartitionInv old.sentClientMeshes acc) :
    meshPartitionInv old.sentClientMeshes
      (visits.foldl (regionChangeVisit old cacheHas) acc) := by
  induction visits generalizing acc with
  | nil => exact h
  | cons v rest ih => exact ih _ (meshPartitionInv_step old cacheHas acc v h)

/-- C10: immediately after regionChange, a chunk id is a key of the new
chunkDistances exactly when it is in sentClientMeshes or clientMissingMeshes,
and never in both: the tracked chunks are partitioned by the two mesh sets. -/
theorem regionChange_mesh_partition (st : WorkerState) (cacheHas : String → Bool)
    (visits : List Visit) (id : String) :
    ((((regionChange st cacheHas visits).chunkDistances.lookup id).isSome) ↔
      (id ∈ (regionChange st cacheHas visits).sentClientMeshes ∨
        id ∈ (regionChange st cacheHas visits).clientMissingMeshes)) ∧
    ¬ (id ∈ (regionChange st cacheHas visits).sentClientMeshes ∧
        id ∈ (regionChange st cacheHas visits).clientMissingMeshes) := by
  have h := meshPartitionInv_foldl st cacheHas visits
    { chunkDistances := []
      sentClientChunks := []
      sentClientMeshes := []
      clientMissingChunks := []
      clientMissingMeshes := []
      nearbyChunks := []
      requestedChunks := st.requestedChunks }
    ⟨by simp, by simp, by simp⟩
  obtain ⟨h1, h2, h3⟩ := h
  constructor
  · simpa [regionChange] using h1 id
  · intro hand
    have hs : id ∈ (regionChange st cacheHas visits).sentClientMeshes := hand.1
    have hc : id ∈ (regionChange st cacheHas visits).clientMissingMeshes := hand.2
    simp only [regionChange] at hs hc
    exact h3 id hc (h2 id hs)

/-- C5: with previous sentClientMeshes = [A, B] and nearby enumeration {B, C}
(either order), regionChange leaves sentClientMeshes = [B] (B carried forward,
A dropped) and clientMissingMeshes = [C]; the tracked sets are the freshly
computed ones. -/
theorem regionChange_mesh_diff (st : WorkerState) (cacheHas : String → Bool)
    (A B C : String) (pB pC : Int × Int × Int) (dB dC : Nat)
    (hsent : st.sentClientMeshes = [A, B])
    (hCA : C ≠ A) (hCB : C ≠ B)
    (hpB : chunkOutOfBounds st.lastWorldChunks pB = false)
    (hpC : chunkOutOfBounds st.lastWorldChunks pC = false) :
    (regionChange st cacheHas [⟨B, pB, dB⟩, ⟨C, pC, dC⟩]).sentClientMeshes = [B] ∧
    (regionChange st cacheHas [⟨B, pB, dB⟩, ⟨C, pC, dC⟩]).clientMissingMeshes = [C] ∧
    (regionChange st cacheHas [⟨C, pC, dC⟩, ⟨B, pB, dB⟩]).sentClientMeshes = [B] ∧
    (regionChange st cacheHas [⟨C, pC, dC⟩, ⟨B, pB, dB⟩]).clientMissingMeshes = [C] := by
  refine ⟨?_, ?_, ?_, ?_⟩ <;>
    simp [regionChange, regionChangeVisit, hpB, hpC, hsent, hCA, hCB, setInsert]

/-- C5 witness: the diff at a concrete state with sentClientMeshes = [a, b]
and enumeration [b, c]. -/
theorem regionChange_mesh_diff_witness :
    (testWorkerState.sentClientMeshes = ["a", "b"] ∧ ("c" : String) ≠ "a" ∧
      ("c" : String) ≠ "b" ∧
      chunkOutOfBounds testWorkerState.lastWorldChunks (0, 0, 0) = false ∧
      chunkOutOfBounds testWorkerState.lastWorldChunks (2, 0, 0) = false) ∧
    ((regionChange testWorkerState (fun _ => true)
        [⟨"b", (0, 0, 0), 1⟩, ⟨"c", (2, 0, 0), 2⟩]).sentClientMeshes = ["b"] ∧
      (regionChange testWorkerState (fun _ => true)
        [⟨"b", (0, 0, 0), 1⟩, ⟨"c", (2, 0, 0), 2⟩]).clientMissingMeshes = ["c"] ∧
      (regionChange testWorkerState (fun _ => true)
        [⟨"c", (2, 0, 0), 2⟩, ⟨"b", (0, 0, 0), 1⟩]).sentClientMeshes = ["b"] ∧
      (regionChange testWorkerState (fun _ => true)
        [⟨"c", (2, 0, 0), 2⟩, ⟨"b", (0, 0, 0), 1⟩]).clientMissingMeshes = ["c"]) :=
  ⟨by decide,
   regionChange_mesh_diff testWorkerState (fun _ => true) "a" "b" "c"
     (0, 0, 0) (2, 0, 0) 1 2 rfl (by decide) (by decide) (by decide) (by decide)⟩

/-- C6: evaluating the processChunks mesh loop on twelve missing meshes, all
with cached voxel data: eleven meshes are delivered in the single tick, not
the at-most ten of the claim (the loop's break fires only after the delivery
at index 10). -/
theorem processChunks_mesh_cap_exceeded :
    (processChunksMeshDeliveries (fun _ => true)
        ["c00", "c01", "c02", "c03", "c04", "c05", "c06", "c07", "c08", "c09",
         "c10", "c11"]).length = 11 ∧
    10 < (processChunksMeshDeliveries (fun _ => true)
        ["c00", "c01", "c02", "c03", "c04", "c05", "c06", "c07", "c08", "c09",
         "c10", "c11"]).length := by
  decide

/-- C8: a fetch completion for a chunk id that is no longer tracked (not a key
of chunkDistances) leaves the chunk cache unchanged: no entry is created and
nothing is overwritten, whatever the response was. -/
theorem requestOnload_untracked_discards (chunkDistances : List (String × Nat))
    (requestedChunks : List String) (chunkCache : List (String × WChunk))
    (chunkId : String) (position : Int × Int × Int) (response : Option (List Nat))
    (h : chunkDistances.lookup chunkId = none) :
    (requestOnload chunkDistances requestedChunks chunkCache chunkId position
        response).2 = chunkCache := by
  cases response with
  | none => rfl
  | some bytes => simp [requestOnload, h]

/-- C8 witness: an untracked chunk id b arriving with data leaves a concrete
cache unchanged. -/
theorem requestOnload_untracked_discards_witness :
    (([("a", 1)] : List (String × Nat)).lookup "b" = none) ∧
      (requestOnload [("a", 1)] ["b"] [] "b" (0, 0, 0) (some [1, 2])).2 = [] :=
  ⟨by decide,
   requestOnload_untracked_discards [("a", 1)] ["b"] [] "b" (0, 0, 0)
     (some [1, 2]) (by decide)⟩

end ClientWorker

end Voxeling
